import Mathlib

/-!
Shallow embedding of the handwritten-OCR pipeline in
`backend/api/ocr_utils.py`, together with theorems checking the
natural-language specification against it.

Modelling conventions:
* Detector coordinates (Python floats) are modelled as rationals `ℚ`;
  Python `int(...)` truncation and `round(...)` (round-half-to-even)
  are modelled explicitly.
* A Roboflow prediction dictionary is modelled as a record of optional
  fields (`Option` = "key present in the dict").
* Side-effecting collaborators (temp-file saving, the external detection
  call, image decoding, the recognition model) are modelled as oracle
  environments: each call site reads its outcome from the environment.
* Python exceptions caught by a handler are modelled by the handler's
  result value; the handlers in this file are total, matching the
  source's policy that no exception below the orchestrator escapes.
-/

attribute [local semireducible] Rat.mul Rat.inv Rat.add Rat.sub

namespace OcrPipeline

/-- Python `int(q)` on a float: truncation toward zero. -/
def pyInt (q : ℚ) : Int := if 0 ≤ q then ⌊q⌋ else ⌈q⌉

/-- Python `round(q)` on a float: round half to even. -/
def pyRound (q : ℚ) : Int :=
  let n : Int := ⌊q⌋
  let r : ℚ := q - n
  if r < 1/2 then n
  else if 1/2 < r then n + 1
  else if Even n then n else n + 1

/-- One entry of a polygon `points` list: a dict that may or may not
carry the keys `x` and `y`. -/
structure PointRec where
  px : Option ℚ
  py : Option ℚ
deriving Repr, DecidableEq

/-- A nested `bbox` dict (first descriptor shape in the Nepali branch):
keys `x`, `y`, `width`, `height`, each possibly missing (a missing key
raises `KeyError`, caught by the per-region handler). -/
structure BBoxRec where
  x : Option ℚ
  y : Option ℚ
  width : Option ℚ
  height : Option ℚ
deriving Repr, DecidableEq

/-- One detector prediction dict (`RawPrediction`): optional top-level
keys `x`, `y`, `width`, `height`, `bbox`, `points`. -/
structure Pred where
  x : Option ℚ
  y : Option ℚ
  width : Option ℚ
  height : Option ℚ
  bbox : Option BBoxRec
  points : Option (List PointRec)
deriving Repr, DecidableEq

/-- Sort key `p.get('y', float('inf'))`: a missing `y` sorts last. -/
def yKeyInf (p : Pred) : WithTop ℚ :=
  match p.y with
  | some v => (v : WithTop ℚ)
  | none => ⊤

/-- Sort key `p.get('x', float('inf'))`. -/
def xKeyInf (p : Pred) : WithTop ℚ :=
  match p.x with
  | some v => (v : WithTop ℚ)
  | none => ⊤

/-- Grouping key `word.get('y', 0)` used by the Nepali line-grouping
walk (note the default is `0` here, not infinity). -/
def yVal (p : Pred) : ℚ := p.y.getD 0

/-- The comparison used by `region_predictions.sort(key=lambda p: p.get('y', ...))`. -/
def yLe (a b : Pred) : Prop := yKeyInf a ≤ yKeyInf b

instance : DecidableRel yLe := fun a b => inferInstanceAs (Decidable (_ ≤ _))

instance : IsTotal Pred yLe := ⟨fun a b => le_total _ _⟩

instance : IsTrans Pred yLe := ⟨fun _ _ _ => le_trans⟩

/-- The comparison used by `current_line.sort(key=lambda p: p.get('x', ...))`. -/
def xLe (a b : Pred) : Prop := xKeyInf a ≤ xKeyInf b

instance : DecidableRel xLe := fun a b => inferInstanceAs (Decidable (_ ≤ _))

/-- Python `list.sort(key=λp. p.get('y', inf))` is a stable ascending
sort; a stable sort by a total preorder is extensionally unique, so we
embed it as insertion sort with the same key. -/
def sortByY (l : List Pred) : List Pred := l.insertionSort yLe

/-- Python `list.sort(key=λp. p.get('x', inf))` on one line group. -/
def sortByX (l : List Pred) : List Pred := l.insertionSort xLe

/-- The filtering list comprehension
`[[int(round(p['x'])), int(round(p['y']))] for p in points_data if 'x' in p and 'y' in p]`. -/
def roundedPoints (pts : List PointRec) : List (Int × Int) :=
  pts.filterMap fun p =>
    match p.px, p.py with
    | some a, some b => some (pyRound a, pyRound b)
    | _, _ => none

/-- `cv2.boundingRect` on an integer point list: `(min x, min y,
max x - min x + 1, max y - min y + 1)`; raises on an empty list (the
exception is caught by the per-region handler, so we return `none`). -/
def boundingRect (pts : List (Int × Int)) : Option (Int × Int × Int × Int) :=
  match pts with
  | [] => none
  | p :: rest =>
    let mnx := rest.foldl (fun a q => min a q.1) p.1
    let mny := rest.foldl (fun a q => min a q.2) p.2
    let mxx := rest.foldl (fun a q => max a q.1) p.1
    let mxy := rest.foldl (fun a q => max a q.2) p.2
    some (mnx, mny, mxx - mnx + 1, mxy - mny + 1)

/-- The crop padding constant (`padding = 5`). -/
def padding : Int := 5

/-- Geometry extraction in the English branch (lines 388–402 of
`ocr_utils.py`): only the `points` polygon shape is accepted; the list
must have length ≥ 3 before filtering and ≥ 3 usable points after
filtering; the polygon is reduced to `cv2.boundingRect`. -/
def englishGeometry (p : Pred) : Option (Int × Int × Int × Int) :=
  match p.points with
  | none => none
  | some pts =>
    if pts.length < 3 then none
    else
      let ip := roundedPoints pts
      if ip.length < 3 then none
      else boundingRect ip

/-- Geometry extraction in the Nepali branch (lines 452–468 of
`ocr_utils.py`), returning float `(x, y, w, h)`:
1. a `bbox` dict (its own missing sub-key raises, caught → skip);
2. else top-level `x`,`y`,`width`,`height` (centre coordinates,
   converted to top-left via `x - width/2`, `y - height/2`);
3. else a `points` polygon via `cv2.boundingRect` (no minimum-point
   check; an empty usable-point list raises, caught → skip);
4. else skip. -/
def nepaliGeometry (p : Pred) : Option (ℚ × ℚ × ℚ × ℚ) :=
  match p.bbox with
  | some bb =>
    match bb.x, bb.y, bb.width, bb.height with
    | some a, some b, some w, some h => some (a, b, w, h)
    | _, _, _, _ => none
  | none =>
    match p.x, p.y, p.width, p.height with
    | some a, some b, some w, some h => some (a - w / 2, b - h / 2, w, h)
    | _, _, _, _ =>
      match p.points with
      | some pts =>
        (boundingRect (roundedPoints pts)).map
          fun r => ((r.1 : ℚ), (r.2.1 : ℚ), (r.2.2.1 : ℚ), (r.2.2.2 : ℚ))
      | none => none

/-- Effective index of a Python/numpy slice bound `i` on an axis of
length `n`: a negative bound counts from the end, and the result is
clamped into `[0, n]`. -/
def npStart (i n : Int) : Int :=
  if i < 0 then max 0 (n + i) else min n i

/-- The padded, clamped crop rectangle of the English branch
(lines 405–408), then resolved through numpy slice semantics
(`masked[y1:y2, x1:x2]`): returns the effective `(x1, y1, x2, y2)`. -/
def effRectEnglish (W H x y w h : Int) : Int × Int × Int × Int :=
  let x1 := max 0 (x - padding)
  let y1 := max 0 (y - padding)
  let x2 := min W (x + w + padding)
  let y2 := min H (y + h + padding)
  (npStart x1 W, npStart y1 H, npStart x2 W, npStart y2 H)

/-- The padded, clamped crop rectangle of the Nepali branch
(lines 471–474): `x1 = max(0, int(x) - padding)` …
`x2 = min(img_w, int(x + w) + padding)`, resolved through numpy slice
semantics. -/
def effRectNepali (W H : Int) (x y w h : ℚ) : Int × Int × Int × Int :=
  let x1 := max 0 (pyInt x - padding)
  let y1 := max 0 (pyInt y - padding)
  let x2 := min W (pyInt (x + w) + padding)
  let y2 := min H (pyInt (y + h) + padding)
  (npStart x1 W, npStart y1 H, npStart x2 W, npStart y2 H)

/-- `cropped.size == 0` is the negation of this: both slice axes are
non-degenerate. -/
def rectNonempty (r : Int × Int × Int × Int) : Prop :=
  r.1 < r.2.2.1 ∧ r.2.1 < r.2.2.2

instance (r : Int × Int × Int × Int) : Decidable (rectNonempty r) :=
  inferInstanceAs (Decidable (_ ∧ _))

/-! ### Nepali line grouping (lines 345–368 of `ocr_utils.py`) -/

/-- The grouping walk without the per-group x-sort: accumulates the raw
consecutive runs (used to state stability of group membership).
`lastY` is the `y` (default 0) of the previously processed word. -/
def chunkLoop (groups : List (List Pred)) (cur : List Pred) (lastY : ℚ) :
    List Pred → List (List Pred)
  | [] => groups ++ [cur]
  | w :: rest =>
    if |yVal w - lastY| ≤ 20 then
      chunkLoop groups (cur ++ [w]) (yVal w) rest
    else
      chunkLoop (groups ++ [cur]) [w] (yVal w) rest

/-- The consecutive y-runs of a list under the 20-unit threshold. -/
def chunkByY : List Pred → List (List Pred)
  | [] => []
  | w :: rest => chunkLoop [] [w] (yVal w) rest

/-- The grouping walk exactly as in the source: each completed line is
sorted left-to-right by `x` before being appended to `line_groups`. -/
def groupLoop (groups : List (List Pred)) (cur : List Pred) (lastY : ℚ) :
    List Pred → List (List Pred)
  | [] => groups ++ [sortByX cur]
  | w :: rest =>
    if |yVal w - lastY| ≤ 20 then
      groupLoop groups (cur ++ [w]) (yVal w) rest
    else
      groupLoop (groups ++ [sortByX cur]) [w] (yVal w) rest

/-- `line_groups` as built from the y-sorted word list: walk the list,
a word joins the current line when its `y` is within 20 units of the
previous word's `y`, else a new line starts; the first word opens the
first line (`last_y is None`); an empty input yields no groups. -/
def groupWords : List Pred → List (List Pred)
  | [] => []
  | w :: rest => groupLoop [] [w] (yVal w) rest

/-! ### Detector adapter (`detect_text_lines`, `detect_text_words`) -/

/-- Outcome of the external `client.infer` call. -/
inductive InferOutcome where
  /-- The call (or response handling) raised an exception. -/
  | raises : InferOutcome
  /-- The call succeeded; `response.get('predictions', [])` is `preds`. -/
  | succeeds (preds : List Pred) : InferOutcome

/-- Environment of one detector-adapter invocation. -/
structure DetectEnv where
  /-- Whether `save_temp_image` returned a path (`true`) or `None`. -/
  saveTempOk : Bool
  /-- Outcome of the external inference call. -/
  infer : InferOutcome

/-- Shared control flow of both Roboflow adapters: a temp-save failure
returns `None` (critical failure); an exception during the external
call is caught and returns `[]`; success returns the prediction list.
The `modelId` is configuration only and does not affect control flow. -/
def roboflowDetect (modelId : String) (env : DetectEnv) : Option (List Pred) :=
  let _ := modelId
  if env.saveTempOk then
    match env.infer with
    | .raises => some []
    | .succeeds preds => some preds
  else
    none

/-- `detect_text_lines` (English line detection). -/
def detect_text_lines (env : DetectEnv) : Option (List Pred) :=
  roboflowDetect "handwritten-text-line-segment/3" env

/-- `detect_text_words` (Nepali word detection). -/
def detect_text_words (env : DetectEnv) : Option (List Pred) :=
  roboflowDetect "devanagari-word-detection/1" env

/-! ### Recognition-model loading (`load_english_ocr_model`,
`load_nepali_ocr_model`) -/

/-- The per-language module-level loaded flag. -/
structure LoadState where
  loaded : Bool
deriving Repr, DecidableEq

/-- Environment of one load call. -/
structure LoadEnv where
  /-- `model_path` is configured and `os.path.isdir` holds. -/
  pathOk : Bool
  /-- `from_pretrained` / device placement raises. -/
  loadRaises : Bool

/-- Shared body of `load_english_ocr_model` and `load_nepali_ocr_model`:
returns `(result, new flag state, whether the external load ran)`.
An already-set flag short-circuits to `True`; a bad path returns
`False` leaving the flag unset; an exception during loading is caught,
the globals are reset (flag `False`) and `False` is returned; success
sets the flag and returns `True`. -/
def load_ocr_model (env : LoadEnv) (s : LoadState) : Bool × LoadState × Bool :=
  if s.loaded then (true, s, false)
  else if ¬env.pathOk then (false, s, false)
  else if env.loadRaises then (false, ⟨false⟩, true)
  else (true, ⟨true⟩, true)

/-- `load_english_ocr_model` instantiates the shared body on the
English globals. -/
def load_english_ocr_model : LoadEnv → LoadState → Bool × LoadState × Bool :=
  load_ocr_model

/-- `load_nepali_ocr_model` instantiates the shared body on the Nepali
globals. -/
def load_nepali_ocr_model : LoadEnv → LoadState → Bool × LoadState × Bool :=
  load_ocr_model

/-! ### Pipeline orchestrator (`perform_ocr_on_image`) -/

/-- Environment of one `perform_ocr_on_image` invocation: the outcomes
of every external effect the function performs. -/
structure OcrEnv where
  /-- The `load_english_ocr_model()` call at the top returns `True`. -/
  englishLoadOk : Bool
  /-- The `load_nepali_ocr_model()` call at the top returns `True`. -/
  nepaliLoadOk : Bool
  /-- `cv2.imdecode` result: `none` on decode failure, else the decoded
  image's `(img_w, img_h)`. -/
  decodeResult : Option (Int × Int)
  /-- Environment of the `detect_text_lines` call. -/
  lineDetect : DetectEnv
  /-- Environment of the `detect_text_words` call. -/
  wordDetect : DetectEnv
  /-- Result of `process_line_with_ocr` on the crop with the given
  effective rectangle: `none` models both a recognition failure and an
  empty-after-strip output (the source returns `None` for both). -/
  recognize : Int × Int × Int × Int → Option String

/-- `detect_text_regions`: dispatch on the language tag; an unsupported
tag is logged and yields the empty list. -/
def detect_text_regions (env : OcrEnv) (language : String) : Option (List Pred) :=
  if language = "english" then detect_text_lines env.lineDetect
  else if language = "nepali" then detect_text_words env.wordDetect
  else some []

/-- Which model-load gate `perform_ocr_on_image` consults: the English
load for `'english'`, the Nepali load for every other tag. -/
def modelLoadGate (env : OcrEnv) (language : String) : Bool :=
  if language = "english" then env.englishLoadOk else env.nepaliLoadOk

/-- Python truthiness of the per-region OCR result: only a non-`None`,
non-empty string is appended (`if line_text: full_text.append(...)`). -/
def truthyText : Option String → Option String
  | some s => if s = "" then none else some s
  | none => none

/-- One iteration of the English per-line loop (lines 385–438): extract
the polygon geometry, pad and clamp, skip an empty crop, else recognize;
`none` means the region was skipped (or contributed no text). -/
def processEnglishRegion (env : OcrEnv) (W H : Int) (p : Pred) : Option String :=
  match englishGeometry p with
  | none => none
  | some (x, y, w, h) =>
    let r := effRectEnglish W H x y w h
    if rectNonempty r then truthyText (env.recognize r) else none

/-- One iteration of the Nepali per-word loop (lines 448–491). -/
def processNepaliRegion (env : OcrEnv) (W H : Int) (p : Pred) : Option String :=
  match nepaliGeometry p with
  | none => none
  | some (x, y, w, h) =>
    let r := effRectNepali W H x y w h
    if rectNonempty r then truthyText (env.recognize r) else none

/-- Line 441: `result = "\n".join(full_text) if full_text else None`. -/
def joinEnglish (texts : List String) : Option String :=
  if texts = [] then none else some (String.intercalate "\n" texts)

/-- Lines 496–502: each line's words are joined by a space and appended
only when the line produced text; the lines are then joined by
newlines, `None` when nothing was collected. -/
def joinNepali (lineTexts : List (List String)) : Option String :=
  let ls := lineTexts.filterMap fun ws =>
    if ws = [] then none else some (String.intercalate " " ws)
  if ls = [] then none else some (String.intercalate "\n" ls)

/-- Step 5 (lines 505–510): an empty-string result is falsy and also
maps to `None`. -/
def finalResult (r : Option String) : Option String :=
  match r with
  | some s => if s = "" then none else some s
  | none => none

/-- `perform_ocr_on_image(image_bytes, language)`: the orchestrator.
Returns the transcript, or `None` on model-load failure, decode
failure, detector critical failure, zero detections, or zero collected
region texts. -/
def perform_ocr_on_image (env : OcrEnv) (language : String) : Option String :=
  if ¬modelLoadGate env language then none
  else
    match env.decodeResult with
    | none => none
    | some (imgW, imgH) =>
      match detect_text_regions env language with
      | none => none
      | some [] => none
      | some (p :: ps) =>
        if language = "english" then
          let ordered := sortByY (p :: ps)
          let texts := ordered.filterMap (processEnglishRegion env imgW imgH)
          finalResult (joinEnglish texts)
        else
          let lineGroups := groupWords (sortByY (p :: ps))
          let lineTexts := lineGroups.map fun line =>
            line.filterMap (processNepaliRegion env imgW imgH)
          finalResult (joinNepali lineTexts)

/-! ### Specification-side predicates and sample inputs -/

/-- Consecutive members of one line group are vertically within the
20-unit threshold. -/
def chainNear (g : List Pred) : Prop :=
  g.Chain' fun a b => |yVal b - yVal a| ≤ 20

/-- The last word of one group and the first word of the next are
strictly more than 20 units apart vertically. -/
def boundaryFar (g1 g2 : List Pred) : Prop :=
  ∀ a ∈ g1.getLast?, ∀ b ∈ g2.head?, 20 < |yVal b - yVal a|

/-- The CropRect invariant of the spec:
`0 ≤ x1 < x2 ≤ image_width ∧ 0 ≤ y1 < y2 ≤ image_height`. -/
def cropInvariant (W H : Int) (r : Int × Int × Int × Int) : Prop :=
  0 ≤ r.1 ∧ r.1 < r.2.2.1 ∧ r.2.2.1 ≤ W ∧
    0 ≤ r.2.1 ∧ r.2.1 < r.2.2.2 ∧ r.2.2.2 ≤ H

/-- A prediction carrying only a `y` coordinate. -/
def yOnly (q : ℚ) : Pred := ⟨none, some q, none, none, none, none⟩

/-- A prediction carrying only `x` and `y` coordinates. -/
def xyOnly (a b : ℚ) : Pred := ⟨some a, some b, none, none, none, none⟩

/-- A prediction with no keys at all. -/
def emptyPred : Pred := ⟨none, none, none, none, none, none⟩

/-- A centre-coordinate box prediction (second descriptor shape). -/
def centerBoxPred : Pred := ⟨some 50, some 60, some 10, some 20, none, none⟩

/-- A polygon prediction with four valid points, bounding box
`(0, 0, 11, 6)`. -/
def polyPred : Pred :=
  ⟨none, some 1, none, none, none,
    some [⟨some 0, some 0⟩, ⟨some 10, some 0⟩, ⟨some 10, some 5⟩, ⟨some 0, some 5⟩]⟩

/-- A nested-bbox prediction (first descriptor shape). -/
def bboxPred : Pred :=
  ⟨some 1, some 2, none, none, some ⟨some 3, some 4, some 5, some 6⟩, none⟩

/-- An environment where everything succeeds but the detector finds
zero regions. -/
def envZeroRegions : OcrEnv :=
  ⟨true, true, some (100, 100), ⟨true, .succeeds []⟩, ⟨true, .succeeds []⟩,
    fun _ => none⟩

/-- An environment where image decoding fails. -/
def envDecodeFail : OcrEnv :=
  ⟨true, true, none, ⟨true, .succeeds []⟩, ⟨true, .succeeds []⟩,
    fun _ => none⟩

/-- An environment where saving the temp image for the detector fails,
so detection fails critically. -/
def envDetectCrit : OcrEnv :=
  ⟨true, true, some (100, 100), ⟨false, .raises⟩, ⟨false, .raises⟩,
    fun _ => none⟩

/-- An environment with one detected polygon region and a recognizer
that reads "HELLO" from every crop. -/
def envSample : OcrEnv :=
  ⟨true, true, some (100, 100), ⟨true, .succeeds [polyPred]⟩,
    ⟨true, .succeeds [polyPred]⟩, fun _ => some "HELLO"⟩

/-! ## Theorems -/

/-- Claim C7: the transcript is assembled by joining lines with a
single newline; for the word-based script the words of each line are
joined by a single space: `["a","b"]` gives `"a\nb"` and
`[["a","b"],["c"]]` gives `"a b\nc"`. -/
theorem C7_transcript_joining :
    joinEnglish ["a", "b"] = some "a\nb" ∧
    joinNepali [["a", "b"], ["c"]] = some "a b\nc" := by
  constructor <;> rfl

/-- Counterexample to claim C2: with the temporary image saved
successfully, an exception during the external detection call is
caught and yields the empty list `some []` — not the critical-failure
value `none` — so a transport error is indistinguishable from a
successful call with zero detections. -/
theorem C2_counterexample :
    detect_text_lines ⟨true, .raises⟩ = some [] ∧
    detect_text_words ⟨true, .raises⟩ = some [] ∧
    detect_text_lines ⟨true, .raises⟩ ≠ none := by
  refine ⟨rfl, rfl, by simp [detect_text_lines, roboflowDetect]⟩

/-- Claim C2 (amended): the detector adapters return the critical-
failure value `none` exactly when saving the temporary image fails; an
exception raised by the external detection call is caught and yields
the empty list, the same value as a successful call with an empty
result, and both adapters share this behaviour. -/
theorem C2_detector_outcomes (env : DetectEnv) :
    (detect_text_lines env = none ↔ env.saveTempOk = false) ∧
    (env.saveTempOk = true → env.infer = .raises → detect_text_lines env = some []) ∧
    (∀ ps, env.saveTempOk = true → env.infer = .succeeds ps →
      detect_text_lines env = some ps) ∧
    detect_text_words env = detect_text_lines env := by
  obtain ⟨st, outcome⟩ := env
  cases st <;> cases outcome <;>
    simp [detect_text_lines, detect_text_words, roboflowDetect]

/-- Witness for C2: the three adapter outcomes at concrete inputs. -/
theorem C2_witness :
    detect_text_lines ⟨false, .raises⟩ = none ∧
    detect_text_lines ⟨true, .succeeds [emptyPred]⟩ = some [emptyPred] ∧
    detect_text_words ⟨true, .succeeds []⟩ = detect_text_lines ⟨true, .succeeds []⟩ :=
  ⟨(C2_detector_outcomes ⟨false, .raises⟩).1.mpr rfl,
   (C2_detector_outcomes ⟨true, .succeeds [emptyPred]⟩).2.2.1 [emptyPred] rfl rfl,
   (C2_detector_outcomes ⟨true, .succeeds []⟩).2.2.2⟩

/-- Claim C9: a model-load failure is reported as `false` and leaves
the loaded flag unset, so the next call attempts the load again (and
succeeds once the configuration is fixed); after a successful load the
flag is set and subsequent calls return `true` immediately without
invoking the external load; both language loaders share this body. -/
theorem C9_lazy_idempotent_load (env env2 : LoadEnv) (s : LoadState)
    (hfail : env.pathOk = false ∨ env.loadRaises = true)
    (hpath : env2.pathOk = true) (hload : env2.loadRaises = false) :
    load_english_ocr_model = load_ocr_model ∧
    load_nepali_ocr_model = load_ocr_model ∧
    (s.loaded = false →
      (load_ocr_model env s).1 = false ∧
      ((load_ocr_model env s).2.1).loaded = false) ∧
    (s.loaded = false →
      (load_ocr_model env2 ((load_ocr_model env s).2.1)).1 = true ∧
      (load_ocr_model env2 ((load_ocr_model env s).2.1)).2.2 = true) ∧
    (s.loaded = true → load_ocr_model env s = (true, s, false)) ∧
    (s.loaded = false → load_ocr_model env2 s = (true, ⟨true⟩, true)) := by
  obtain ⟨p, r⟩ := env
  obtain ⟨p2, r2⟩ := env2
  obtain ⟨flag⟩ := s
  subst hpath
  subst hload
  cases p <;> cases r <;> cases flag <;>
    simp_all [load_ocr_model, load_english_ocr_model, load_nepali_ocr_model]

/-- Witness for C9: a failed load at a bad path reports `false`, keeps
the flag unset, and the next call with a good path loads and succeeds. -/
theorem C9_witness :
    ((load_ocr_model ⟨false, false⟩ ⟨false⟩).1 = false ∧
      ((load_ocr_model ⟨false, false⟩ ⟨false⟩).2.1).loaded = false) ∧
    ((load_ocr_model ⟨true, false⟩ ((load_ocr_model ⟨false, false⟩ ⟨false⟩).2.1)).1 = true ∧
      (load_ocr_model ⟨true, false⟩ ((load_ocr_model ⟨false, false⟩ ⟨false⟩).2.1)).2.2 = true) ∧
    load_ocr_model ⟨false, false⟩ ⟨true⟩ = (true, ⟨true⟩, false) :=
  ⟨(C9_lazy_idempotent_load ⟨false, false⟩ ⟨true, false⟩ ⟨false⟩
      (Or.inl rfl) rfl rfl).2.2.1 rfl,
   (C9_lazy_idempotent_load ⟨false, false⟩ ⟨true, false⟩ ⟨false⟩
      (Or.inl rfl) rfl rfl).2.2.2.1 rfl,
   (C9_lazy_idempotent_load ⟨false, false⟩ ⟨true, false⟩ ⟨true⟩
      (Or.inl rfl) rfl rfl).2.2.2.2.1 rfl⟩

/-- Claim C10: for a language tag other than `"english"` — including
tags outside the supported set — the orchestrator consults the Nepali
model-load gate, region detection returns the empty list, and the
whole pipeline returns the absent value `none`. -/
theorem C10_unsupported_language (env : OcrEnv) (lang : String)
    (h1 : lang ≠ "english") (h2 : lang ≠ "nepali") :
    modelLoadGate env lang = env.nepaliLoadOk ∧
    detect_text_regions env lang = some [] ∧
    perform_ocr_on_image env lang = none := by
  have hd : detect_text_regions env lang = some [] := by
    simp [detect_text_regions, h1, h2]
  refine ⟨by simp [modelLoadGate, h1], hd, ?_⟩
  unfold perform_ocr_on_image
  rw [hd]
  split
  · rfl
  · rcases hdec : env.decodeResult with _ | ⟨W, Ht⟩ <;> simp [hdec]

/-- Witness for C10: a call with the unsupported tag `"french"`. -/
theorem C10_witness :
    modelLoadGate envZeroRegions "french" = envZeroRegions.nepaliLoadOk ∧
    detect_text_regions envZeroRegions "french" = some [] ∧
    perform_ocr_on_image envZeroRegions "french" = none :=
  C10_unsupported_language envZeroRegions "french" (by decide) (by decide)

/-- Counterexample to claim C1: on a decodable image whose detection
succeeds with zero regions the pipeline returns `none` — but that is
the very same value it returns on image-decode failure, so the "no
text" outcome is not distinct from the critical-failure outcome. -/
theorem C1_counterexample :
    perform_ocr_on_image envZeroRegions "english" = none ∧
    perform_ocr_on_image envDecodeFail "english" = none ∧
    perform_ocr_on_image envZeroRegions "english"
      = perform_ocr_on_image envDecodeFail "english" :=
  ⟨rfl, rfl, rfl⟩

/-- Claim C1 (amended): for every valid image whose detection succeeds
with zero regions the pipeline returns the absent value `none`; decode
failure and detector critical failure also return `none`, so the
absent value coincides with (is not distinct from) the failure value. -/
theorem C1_absent_equals_failure (env : OcrEnv) (language : String) :
    (detect_text_regions env language = some [] →
      perform_ocr_on_image env language = none) ∧
    (env.decodeResult = none → perform_ocr_on_image env language = none) ∧
    (detect_text_regions env language = none →
      perform_ocr_on_image env language = none) := by
  refine ⟨fun h => ?_, fun h => ?_, fun h => ?_⟩ <;>
    unfold perform_ocr_on_image <;> split
  · rfl
  · rcases hdec : env.decodeResult with _ | ⟨W, Ht⟩ <;> simp [hdec, h]
  · rfl
  · simp [h]
  · rfl
  · rcases hdec : env.decodeResult with _ | ⟨W, Ht⟩ <;> simp [hdec, h]

/-- Witness for C1: zero detected regions, decode failure and detector
critical failure all at concrete environments. -/
theorem C1_witness :
    perform_ocr_on_image envZeroRegions "nepali" = none ∧
    perform_ocr_on_image envDecodeFail "nepali" = none ∧
    perform_ocr_on_image envDetectCrit "english" = none :=
  ⟨(C1_absent_equals_failure envZeroRegions "nepali").1 (by decide),
   (C1_absent_equals_failure envDecodeFail "nepali").2.1 rfl,
   (C1_absent_equals_failure envDetectCrit "english").2.2 (by decide)⟩

/-- Claim C3: a region whose processing fails (missing coordinate
keys, fewer than 3 usable polygon points, zero-area crop, or failed
recognition — all of which make its per-region result `none`) is
simply dropped from the collected texts, leaving the contribution of
every other region unchanged, in both the line-based and the
word-based loops; a prediction with no `points` key, or with fewer
than 3 points, is always such a skip in the English loop. -/
theorem C3_region_isolation (env : OcrEnv) (W H : Int) (l1 l2 : List Pred)
    (b b' : Pred) (hb : processEnglishRegion env W H b = none)
    (hb' : processNepaliRegion env W H b' = none) :
    ((l1 ++ b :: l2).filterMap (processEnglishRegion env W H)
      = (l1 ++ l2).filterMap (processEnglishRegion env W H)) ∧
    ((l1 ++ b' :: l2).filterMap (processNepaliRegion env W H)
      = (l1 ++ l2).filterMap (processNepaliRegion env W H)) ∧
    (∀ p : Pred, p.points = none → processEnglishRegion env W H p = none) ∧
    (∀ p : Pred, ∀ pts, p.points = some pts → pts.length < 3 →
      processEnglishRegion env W H p = none) := by
  refine ⟨?_, ?_, ?_, ?_⟩
  · simp [List.filterMap_append, List.filterMap_cons, hb]
  · simp [List.filterMap_append, List.filterMap_cons, hb']
  · intro p hp
    simp [processEnglishRegion, englishGeometry, hp]
  · intro p pts hp hlen
    simp [processEnglishRegion, englishGeometry, hp, hlen]

/-- Witness for C3: dropping a keyless prediction placed between two
genuine regions leaves the other regions' results unchanged. -/
theorem C3_witness :
    (([polyPred] ++ emptyPred :: [bboxPred]).filterMap
        (processEnglishRegion envSample 100 100)
      = ([polyPred] ++ [bboxPred]).filterMap
        (processEnglishRegion envSample 100 100)) ∧
    processEnglishRegion envSample 100 100 emptyPred = none :=
  ⟨(C3_region_isolation envSample 100 100 [polyPred] [bboxPred] emptyPred emptyPred
      (by decide) (by decide)).1,
   (C3_region_isolation envSample 100 100 [polyPred] [bboxPred] emptyPred emptyPred
      (by decide) (by decide)).2.2.1 emptyPred rfl⟩

/-- Counterexample to claim C5: a centre-coordinate box prediction
(second descriptor shape) is rejected by the line-based (English)
geometry step — which accepts only polygon point lists — even though
the word-based (Nepali) step accepts and converts it, so the three
descriptor shapes are not accepted for every script. -/
theorem C5_counterexample :
    englishGeometry centerBoxPred = none ∧
    nepaliGeometry centerBoxPred = some (45, 50, 10, 20) := by
  constructor <;> decide

/-- Claim C5 (amended): only the word-based (Nepali) geometry step
accepts the three descriptor shapes, in priority order: (1) a named
`bbox` with explicit width/height, (2) a centre-coordinate box
converted to top-left via `x - width/2` and `y - height/2`, (3) a
polygon point list reduced to its axis-aligned bounding rectangle —
with no minimum-point requirement in the Nepali polygon case; the
line-based (English) geometry step accepts only polygon point lists
and requires at least 3 valid points. -/
theorem C5_descriptor_shapes (p : Pred) :
    (∀ bb a b w h, p.bbox = some bb → bb.x = some a → bb.y = some b →
      bb.width = some w → bb.height = some h →
      nepaliGeometry p = some (a, b, w, h)) ∧
    (∀ a b w h, p.bbox = none → p.x = some a → p.y = some b →
      p.width = some w → p.height = some h →
      nepaliGeometry p = some (a - w / 2, b - h / 2, w, h)) ∧
    (∀ pts, p.bbox = none →
      (p.x = none ∨ p.y = none ∨ p.width = none ∨ p.height = none) →
      p.points = some pts →
      nepaliGeometry p = (boundingRect (roundedPoints pts)).map
        (fun r => ((r.1 : ℚ), (r.2.1 : ℚ), (r.2.2.1 : ℚ), (r.2.2.2 : ℚ)))) ∧
    (p.points = none → englishGeometry p = none) ∧
    (∀ pts, p.points = some pts → 3 ≤ pts.length →
      3 ≤ (roundedPoints pts).length →
      englishGeometry p = boundingRect (roundedPoints pts)) := by
  refine ⟨?_, ?_, ?_, ?_, ?_⟩
  · intro bb a b w h hbb hx hy hw hh
    simp [nepaliGeometry, hbb, hx, hy, hw, hh]
  · intro a b w h hbb hx hy hw hh
    simp [nepaliGeometry, hbb, hx, hy, hw, hh]
  · intro pts hbb hmiss hp
    rcases hmiss with h0 | h0 | h0 | h0 <;>
      rcases hx : p.x with _ | a <;>
        rcases hy : p.y with _ | b <;>
          rcases hw : p.width with _ | w <;>
            rcases hh : p.height with _ | hgt <;>
              simp_all [nepaliGeometry]
  · intro hp
    simp [englishGeometry, hp]
  · intro pts hp h3 h3'
    have hn3 : ¬pts.length < 3 := by omega
    have hn3' : ¬(roundedPoints pts).length < 3 := by omega
    simp [englishGeometry, hp, hn3, hn3']

/-- Witness for C5: each Nepali descriptor shape at a concrete
prediction, and the English polygon path with its point requirement. -/
theorem C5_witness :
    nepaliGeometry bboxPred = some (3, 4, 5, 6) ∧
    nepaliGeometry centerBoxPred = some (45, 50, 10, 20) ∧
    nepaliGeometry polyPred = some (0, 0, 11, 6) ∧
    englishGeometry emptyPred = none ∧
    englishGeometry polyPred = some (0, 0, 11, 6) :=
  ⟨(C5_descriptor_shapes bboxPred).1 _ 3 4 5 6 rfl rfl rfl rfl rfl,
   (C5_descriptor_shapes centerBoxPred).2.1 50 60 10 20 rfl rfl rfl rfl rfl,
   ((C5_descriptor_shapes polyPred).2.2.1 _ rfl (Or.inl rfl) rfl).trans (by decide),
   (C5_descriptor_shapes emptyPred).2.2.2.1 rfl,
   ((C5_descriptor_shapes polyPred).2.2.2.2 _ rfl (by decide) (by decide)).trans
     (by decide)⟩

/-- Effective numpy slice bounds always land inside `[0, n]`. -/
theorem npStart_mem (i n : Int) (hn : 0 ≤ n) :
    0 ≤ npStart i n ∧ npStart i n ≤ n := by
  unfold npStart
  split <;> constructor <;> omega

/-- Claim C6: after the 5-pixel padding, the clamping, and numpy slice
resolution, any non-empty crop rectangle — the only kind ever passed
to recognition — satisfies `0 ≤ x1 < x2 ≤ W` and `0 ≤ y1 < y2 ≤ H`;
a region whose rectangle is empty after clamping is skipped (its
per-region result is `none`) and never reaches the recognizer. -/
theorem C6_crop_invariant (W H : Int) (hW : 0 ≤ W) (hH : 0 ≤ H) :
    (∀ x y w h : Int, rectNonempty (effRectEnglish W H x y w h) →
      cropInvariant W H (effRectEnglish W H x y w h)) ∧
    (∀ x y w h : ℚ, rectNonempty (effRectNepali W H x y w h) →
      cropInvariant W H (effRectNepali W H x y w h)) ∧
    (∀ (env : OcrEnv) (p : Pred) (x y w h : Int),
      englishGeometry p = some (x, y, w, h) →
      ¬rectNonempty (effRectEnglish W H x y w h) →
      processEnglishRegion env W H p = none) ∧
    (∀ (env : OcrEnv) (p : Pred) (x y w h : ℚ),
      nepaliGeometry p = some (x, y, w, h) →
      ¬rectNonempty (effRectNepali W H x y w h) →
      processNepaliRegion env W H p = none) := by
  refine ⟨?_, ?_, ?_, ?_⟩
  · intro x y w h hne
    exact ⟨(npStart_mem _ W hW).1, hne.1, (npStart_mem _ W hW).2,
      (npStart_mem _ H hH).1, hne.2, (npStart_mem _ H hH).2⟩
  · intro x y w h hne
    exact ⟨(npStart_mem _ W hW).1, hne.1, (npStart_mem _ W hW).2,
      (npStart_mem _ H hH).1, hne.2, (npStart_mem _ H hH).2⟩
  · intro env p x y w h hg hne
    simp [processEnglishRegion, hg, hne]
  · intro env p x y w h hg hne
    simp [processNepaliRegion, hg, hne]

/-- Witness for C6: concrete crops inside a 100×100 image satisfy the
invariant, and in a degenerate 0×0 image every region is skipped. -/
theorem C6_witness :
    cropInvariant 100 100 (effRectEnglish 100 100 0 0 11 6) ∧
    cropInvariant 100 100 (effRectNepali 100 100 45 50 10 20) ∧
    processEnglishRegion envSample 0 0 polyPred = none ∧
    processNepaliRegion envSample 0 0 bboxPred = none :=
  ⟨(C6_crop_invariant 100 100 (by decide) (by decide)).1 0 0 11 6 (by decide),
   (C6_crop_invariant 100 100 (by decide) (by decide)).2.1 45 50 10 20 (by decide),
   (C6_crop_invariant 0 0 le_rfl le_rfl).2.2.1 envSample polyPred 0 0 11 6
     (by decide) (by decide),
   (C6_crop_invariant 0 0 le_rfl le_rfl).2.2.2 envSample bboxPred 3 4 5 6
     (by decide) (by decide)⟩

/-- Inserting an element leaves the subsequence of any fixed sort-key
value equal to consing it in front: the heart of stability. -/
theorem filter_orderedInsert_yKey (k : WithTop ℚ) (a : Pred) (l : List Pred) :
    (l.orderedInsert yLe a).filter (fun p => decide (yKeyInf p = k))
      = ((a :: l).filter (fun p => decide (yKeyInf p = k))) := by
  induction l with
  | nil => rfl
  | cons b t ih =>
    by_cases hab : yLe a b
    · simp [List.orderedInsert, hab]
    · have step : (b :: t).orderedInsert yLe a = b :: t.orderedInsert yLe a := by
        simp [List.orderedInsert, hab]
      by_cases hak : yKeyInf a = k
      · have hbk : ¬yKeyInf b = k := fun hh => hab (le_of_eq (hak.trans hh.symm))
        simp [step, List.filter_cons, ih, hak, hbk, hab]
      · simp [step, List.filter_cons, ih, hak, hab]

/-- The stable sort keeps, for every key value, the original relative
order of the elements carrying that key. -/
theorem filter_sortByY_yKey (k : WithTop ℚ) (l : List Pred) :
    (sortByY l).filter (fun p => decide (yKeyInf p = k))
      = l.filter (fun p => decide (yKeyInf p = k)) := by
  induction l with
  | nil => rfl
  | cons a t ih =>
    rw [sortByY, List.insertionSort, filter_orderedInsert_yKey k a _]
    rw [sortByY] at ih
    simp [List.filter_cons, ih]

/-- Claim C8: on a prediction list whose items all carry a valid `y`,
the line-based reading order is a permutation of the input, sorted by
ascending `y` (both in the inf-defaulted key and in the raw `y`
values), stable (each key's subsequence keeps the detector's original
relative order), and idempotent: re-sorting the output changes
nothing, so re-running the sequencing is deterministic. -/
theorem C8_stable_sort (l : List Pred) (hvalid : ∀ p ∈ l, p.y.isSome = true) :
    (sortByY l).Perm l ∧
    List.Sorted yLe (sortByY l) ∧
    List.Sorted (fun a b => yVal a ≤ yVal b) (sortByY l) ∧
    (∀ k : WithTop ℚ, (sortByY l).filter (fun p => decide (yKeyInf p = k))
      = l.filter (fun p => decide (yKeyInf p = k))) ∧
    sortByY (sortByY l) = sortByY l := by
  have hperm : (sortByY l).Perm l := List.perm_insertionSort yLe l
  have hsort : List.Sorted yLe (sortByY l) := List.sorted_insertionSort yLe l
  refine ⟨hperm, hsort, ?_, fun k => filter_sortByY_yKey k l,
    hsort.insertionSort_eq⟩
  refine hsort.imp_of_mem ?_
  intro a b ha hb hle
  have ha' := hvalid a (hperm.mem_iff.mp ha)
  have hb' := hvalid b (hperm.mem_iff.mp hb)
  rcases hya : a.y with _ | va
  · rw [hya] at ha'
    simp at ha'
  rcases hyb : b.y with _ | vb
  · rw [hyb] at hb'
    simp at hb'
  have hcoe : (va : WithTop ℚ) ≤ (vb : WithTop ℚ) := by
    simpa [yLe, yKeyInf, hya, hyb] using hle
  simpa [yVal, hya, hyb] using WithTop.coe_le_coe.mp hcoe

/-- Witness for C8 at a concrete two-element list with distinct `y`
values (and coordinates that also pin the stable order). -/
theorem C8_witness :
    List.Perm (sortByY [xyOnly 1 5, xyOnly 2 3]) [xyOnly 1 5, xyOnly 2 3] ∧
    sortByY (sortByY [xyOnly 1 5, xyOnly 2 3])
      = sortByY [xyOnly 1 5, xyOnly 2 3] ∧
    sortByY [xyOnly 1 5, xyOnly 2 3] = [xyOnly 2 3, xyOnly 1 5] :=
  ⟨(C8_stable_sort [xyOnly 1 5, xyOnly 2 3] (by simp [xyOnly])).1,
   (C8_stable_sort [xyOnly 1 5, xyOnly 2 3] (by simp [xyOnly])).2.2.2.2,
   by decide⟩

/-- The grouping walk with x-sorting equals the raw chunking walk
followed by sorting each chunk. -/
theorem groupLoop_eq_chunkLoop (l : List Pred) :
    ∀ (groups : List (List Pred)) (cur : List Pred) (lastY : ℚ),
      groupLoop (groups.map sortByX) cur lastY l
        = (chunkLoop groups cur lastY l).map sortByX := by
  induction l with
  | nil =>
    intro groups cur lastY
    simp [groupLoop, chunkLoop]
  | cons w rest ih =>
    intro groups cur lastY
    by_cases hw : |yVal w - lastY| ≤ 20
    · simp only [groupLoop, chunkLoop, if_pos hw]
      exact ih groups (cur ++ [w]) (yVal w)
    · simp only [groupLoop, chunkLoop, if_neg hw]
      have h2 := ih (groups ++ [cur]) [w] (yVal w)
      simpa [List.map_append] using h2

/-- `groupWords` is chunking followed by per-chunk x-sorting. -/
theorem groupWords_eq_chunkByY (l : List Pred) :
    groupWords l = (chunkByY l).map sortByX := by
  cases l with
  | nil => rfl
  | cons w rest => simpa using groupLoop_eq_chunkLoop rest [] [w] (yVal w)

/-- The chunking walk only redistributes its input: the concatenation
of the produced groups is the processed words in order. -/
theorem chunkLoop_flatten (l : List Pred) :
    ∀ (groups : List (List Pred)) (cur : List Pred) (lastY : ℚ),
      (chunkLoop groups cur lastY l).flatten = groups.flatten ++ cur ++ l := by
  induction l with
  | nil =>
    intro groups cur lastY
    simp [chunkLoop]
  | cons w rest ih =>
    intro groups cur lastY
    by_cases hw : |yVal w - lastY| ≤ 20
    · simp only [chunkLoop, if_pos hw]
      rw [ih]
      simp
    · simp only [chunkLoop, if_neg hw]
      rw [ih]
      simp

/-- Chunking loses no word and invents none. -/
theorem chunkByY_flatten (l : List Pred) : (chunkByY l).flatten = l := by
  cases l with
  | nil => rfl
  | cons w rest => simpa using chunkLoop_flatten rest [] [w] (yVal w)

/-- Invariant of the chunking walk: provided the accumulated groups
are nonempty runs within the threshold, separated by over-threshold
boundaries, and the current run ends at the word whose `y` is the
walk's `last_y`, the final group list keeps all of that. -/
theorem chunkLoop_invariant (l : List Pred) :
    ∀ (groups : List (List Pred)) (cur : List Pred) (cl : Pred),
      (∀ g ∈ groups, g ≠ [] ∧ chainNear g) →
      List.Chain' boundaryFar groups →
      cur ≠ [] →
      chainNear cur →
      cur.getLast? = some cl →
      (∀ g ∈ groups.getLast?, boundaryFar g cur) →
      (∀ g ∈ chunkLoop groups cur (yVal cl) l, g ≠ [] ∧ chainNear g) ∧
        List.Chain' boundaryFar (chunkLoop groups cur (yVal cl) l) := by
  induction l with
  | nil =>
    intro groups cur cl h1 h2 h3 h4 _ h6
    constructor
    · intro g hg
      simp only [chunkLoop] at hg
      rcases List.mem_append.mp hg with hg | hg
      · exact h1 g hg
      · simp only [List.mem_singleton] at hg
        subst hg
        exact ⟨h3, h4⟩
    · simp only [chunkLoop]
      rw [List.chain'_append]
      refine ⟨h2, List.chain'_singleton _, ?_⟩
      intro x hx y hy
      simp only [List.head?_cons, Option.mem_def, Option.some.injEq] at hy
      subst hy
      exact h6 x hx
  | cons w rest ih =>
    intro groups cur cl h1 h2 h3 h4 h5 h6
    simp only [chunkLoop]
    by_cases hw : |yVal w - yVal cl| ≤ 20
    · rw [if_pos hw]
      refine ih groups (cur ++ [w]) w h1 h2 (by simp) ?_
        (List.getLast?_concat _) ?_
      · rw [chainNear, List.chain'_append]
        refine ⟨h4, List.chain'_singleton _, ?_⟩
        intro x hx y hy
        simp only [List.head?_cons, Option.mem_def, Option.some.injEq] at hy
        subst hy
        rw [h5] at hx
        simp only [Option.mem_def, Option.some.injEq] at hx
        subst hx
        exact hw
      · intro g hg a ha b hb
        have hb' : b ∈ cur.head? := by
          rcases cur with _ | ⟨c0, ct⟩
          · exact absurd rfl h3
          · simpa using hb
        exact h6 g hg a ha b hb'
    · rw [if_neg hw]
      refine ih (groups ++ [cur]) [w] w ?_ ?_ (by simp)
        (List.chain'_singleton _) rfl ?_
      · intro g hg
        rcases List.mem_append.mp hg with hg | hg
        · exact h1 g hg
        · simp only [List.mem_singleton] at hg
          subst hg
          exact ⟨h3, h4⟩
      · rw [List.chain'_append]
        refine ⟨h2, List.chain'_singleton _, ?_⟩
        intro x hx y hy
        simp only [List.head?_cons, Option.mem_def, Option.some.injEq] at hy
        subst hy
        exact h6 x hx
      · intro g hg a ha b hb
        simp only [List.head?_cons, Option.mem_def, Option.some.injEq] at hb
        subst hb
        have hg' : g = cur := by
          rw [List.getLast?_concat] at hg
          exact (by simpa using hg : cur = g).symm
        subst hg'
        rw [h5] at ha
        simp only [Option.mem_def, Option.some.injEq] at ha
        subst ha
        exact not_le.mp hw

/-- The chunks of any word list are nonempty within-threshold runs
separated by over-threshold boundaries. -/
theorem chunkByY_spec (l : List Pred) :
    (∀ g ∈ chunkByY l, g ≠ [] ∧ chainNear g) ∧
      List.Chain' boundaryFar (chunkByY l) := by
  cases l with
  | nil =>
    exact ⟨fun g hg => absurd hg (List.not_mem_nil g), List.chain'_nil⟩
  | cons w rest =>
    refine chunkLoop_invariant rest [] [w] w ?_ List.chain'_nil (by simp)
      (List.chain'_singleton _) rfl ?_
    · intro g hg
      exact absurd hg (List.not_mem_nil g)
    · intro g hg
      simp at hg

/-- Claim C4: the word-based sequencing builds its line groups as the
consecutive runs of the y-sorted list in which each word is within 20
units of the previous word's `y` (each run then sorted by `x`): runs
are nonempty, cover the input in order, keep consecutive members
within the 20-unit threshold, and adjacent runs are separated by a
strictly greater than 20-unit jump — so a distance of exactly 20 keeps
the same group while 21 starts a new one, as the concrete boundary
instance at `y = 0, 20, 41` shows. -/
theorem C4_word_line_grouping (l : List Pred) :
    groupWords l = (chunkByY l).map sortByX ∧
    (chunkByY l).flatten = l ∧
    (∀ g ∈ chunkByY l, g ≠ [] ∧ chainNear g) ∧
    List.Chain' boundaryFar (chunkByY l) ∧
    chunkByY [yOnly 0, yOnly 20, yOnly 41] = [[yOnly 0, yOnly 20], [yOnly 41]] :=
  ⟨groupWords_eq_chunkByY l, chunkByY_flatten l, (chunkByY_spec l).1,
   (chunkByY_spec l).2, by decide⟩

/-- Witness for C4 at the boundary list `y = 0, 20, 41`: the gap of
exactly 20 keeps one group, the gap of 21 opens a new one. -/
theorem C4_witness :
    groupWords [yOnly 0, yOnly 20, yOnly 41]
      = (chunkByY [yOnly 0, yOnly 20, yOnly 41]).map sortByX ∧
    ([yOnly 0, yOnly 20] ≠ [] ∧ chainNear [yOnly 0, yOnly 20]) :=
  ⟨(C4_word_line_grouping [yOnly 0, yOnly 20, yOnly 41]).1,
   (C4_word_line_grouping [yOnly 0, yOnly 20, yOnly 41]).2.2.1
     [yOnly 0, yOnly 20] (by decide)⟩

end OcrPipeline
